import Mathlib

/-!
Verification of the Turnilo visualization-resolution engine: the rule-chain
evaluator, the Table manifest's rules (src/common/manifests/table/table.ts),
and the Resolutions helpers (src/common/utils/rules/resolutions.ts).

The query-state value types (Sort, Split, Dimension, DataCube, the evaluation
context) and the rule-chain builder live outside the sources at hand; they are
modelled from the specification (sections 3, 4.1, 4.2, 4.3 and 6) and each such
definition says so in its doc comment.  The Table manifest's rule registration
and fallback action are translated directly from the source.
-/

namespace Turnilo

/-- Modelled from the spec: sort direction of a split's sort order
(`SortDirection` of version-4 split definitions; the Table code uses only
`descending`). -/
inductive SortDirection where
  | ascending
  | descending
  deriving DecidableEq, Repr

/-- Modelled from the spec: a sort order is a reference (dimension or measure
name) together with a direction. -/
structure «Sort» where
  reference : String
  direction : SortDirection
  deriving DecidableEq, Repr

/-- Modelled from the spec (section 3, "Split"): one group-by step with a
dimension reference, an optional sort order and an optional row limit.  An
absent sort models `split.sort.empty()`; an absent limit models the falsy
`!split.limit` check (assigned limits are the positive constants 5 and 50, so
JS zero-falsiness is not reachable).  Bucketing is irrelevant to the claims and
omitted. -/
structure Split where
  reference : String
  sort : Option «Sort»
  limit : Option Nat
  deriving DecidableEq, Repr

/-- Source `split.changeSort(sort)`: derive a new split with the given sort. -/
def Split.changeSort (s : Split) (so : «Sort») : Split :=
  { s with sort := some so }

/-- Source `split.changeLimit(limit)`: derive a new split with the given
limit. -/
def Split.changeLimit (s : Split) (l : Nat) : Split :=
  { s with limit := some l }

/-- Modelled from the spec (section 6): a dimension has a name, a kind
("string", "number" or "time") and an optional default sort strategy
("self" or a named reference). -/
structure Dimension where
  name : String
  kind : String
  sortStrategy : Option String
  deriving DecidableEq, Repr

/-- Modelled from the spec (section 6): a measure has a name and a title. -/
structure Measure where
  name : String
  title : String
  deriving DecidableEq, Repr

/-- Modelled from the spec (section 3, "Series"): a series references a
measure by name. -/
structure Series where
  reference : String
  deriving DecidableEq, Repr

/-- Source `Series.fromMeasure(measure)` as used by the Resolutions helpers:
the series referencing the measure. -/
def Series.fromMeasure (m : Measure) : Series :=
  ⟨m.name⟩

/-- Modelled from the spec (section 6, "DataCube catalog"): dimension list,
measure list, default sort expression, and the maximum number of splits the
visualization supports (consulted by the `supportedSplitsCount` predicate,
which takes no explicit argument at the Table's registration site). -/
structure DataCube where
  dimensions : List Dimension
  measures : List Measure
  defaultSortExpression : «Sort»
  maxSplits : Nat
  deriving DecidableEq, Repr

/-- Source `dataCube.getDimension(name)`: look a dimension up by name.  The
result is optional; the engine's contract assumes the reference resolves. -/
def DataCube.getDimension (dc : DataCube) (name : String) : Option Dimension :=
  dc.dimensions.find? (fun d => d.name = name)

/-- Source `dataCube.getDefaultSortExpression()`: the cube's default sort. -/
def DataCube.getDefaultSortExpression (dc : DataCube) : «Sort» :=
  dc.defaultSortExpression

/-- Modelled from the spec (section 4.1): the candidate context bundles the
splits (the ordered split list of the `Splits` wrapper), the data cube, the
optional color-encoding assignment (only its presence matters to the Table
rules, so it is `Option Unit`) and whether this visualization is the currently
selected one. -/
structure Context where
  splits : List Split
  dataCube : DataCube
  colors : Option Unit
  isSelectedVisualization : Bool
  deriving DecidableEq, Repr

/-- Modelled from the spec (sections 4.4 and 4.5): an adjustment payload can
carry corrected splits and/or a corrected series list; fields not mentioned by
the producing action are absent. -/
structure Adjustment where
  splits : Option (List Split)
  series : Option (List Series)
  deriving DecidableEq, Repr

/-- Modelled from the spec (section 3, "Resolution verdict"): READY with a
priority, AUTOMATIC with a priority and an adjustment, or MANUAL with a
diagnostic message.  Named `Resolve` after the class the manifests use. -/
inductive Resolve where
  | ready (priority : Nat)
  | automatic (priority : Nat) (adjustment : Adjustment)
  | manual (message : String)
  deriving DecidableEq, Repr

/-- Modelled from the spec (section 4.5): a canned suggestion is a description
together with an adjustment. -/
structure Resolution where
  description : String
  adjustment : Adjustment
  deriving DecidableEq, Repr

/-- Modelled from the spec (section 3, "Rule chain"): one (predicate, action)
pair of a rule chain. -/
structure Rule (Ctx R : Type) where
  predicate : Ctx → Bool
  action : Ctx → R

/-- Modelled from the spec (section 4.1): evaluate an ordered rule chain
against a context — test predicates in registration order, return the first
matching rule's action result, and fall back to the fallback action when every
predicate is false. -/
def evalRules {Ctx R : Type} (rules : List (Rule Ctx R)) (fallback : Ctx → R)
    (ctx : Ctx) : R :=
  match rules with
  | [] => fallback ctx
  | r :: rest => if r.predicate ctx then r.action ctx else evalRules rest fallback ctx

namespace Predicates

/-- Modelled from the spec (section 4.2): true iff the split sequence is
empty. -/
def noSplits (ctx : Context) : Bool :=
  ctx.splits.isEmpty

/-- Modelled from the spec (section 4.2): true iff the split count exceeds the
visualization's maximum supported splits (taken from the data cube, since the
registration site passes no argument). -/
def supportedSplitsCount (ctx : Context) : Bool :=
  ctx.dataCube.maxSplits < ctx.splits.length

end Predicates

/-- Modelled from the spec: priority of the AUTOMATIC verdict produced by
`removeExcessiveSplits`; the spec fixes the verdict kind and the truncation
but not this number. -/
def removeExcessiveSplitsPriority : Nat := 3

namespace Actions

/-- Modelled from the spec (section 4.3): returns MANUAL with the given
diagnostic string. -/
def manualDimensionSelection (message : String) (_ctx : Context) : Resolve :=
  .manual message

/-- Modelled from the spec (section 4.3): returns AUTOMATIC, truncating the
split sequence to the supported maximum. -/
def removeExcessiveSplits (_title : String) (ctx : Context) : Resolve :=
  .automatic removeExcessiveSplitsPriority
    ⟨some (ctx.splits.take ctx.dataCube.maxSplits), none⟩

end Actions

/-- Translated from the first if-block of the Table fallback's map callback
(src table.ts): when the split's sort is empty, assign one from the
dimension's sort strategy — "self" sorts by the dimension's own name
descending, a named strategy sorts by that reference descending — and with no
strategy fall back to the cube's default sort expression, setting the
`autoChanged` flag (`auto`) in that last case only. -/
def correctSplitSort (dim : Dimension) (dc : DataCube) (split : Split)
    (auto : Bool) : Split × Bool :=
  if split.sort.isNone then
    match dim.sortStrategy with
    | some strat =>
      if strat = "self" then
        (split.changeSort ⟨dim.name, .descending⟩, auto)
      else
        (split.changeSort ⟨strat, .descending⟩, auto)
    | none => (split.changeSort dc.getDefaultSortExpression, true)
  else (split, auto)

/-- Translated from the second if-block of the Table fallback's map callback
(src table.ts): `if (!split.limit && (autoChanged || splitDimension.kind !==
"time")) { split = split.changeLimit(i ? 5 : 50); autoChanged = true; }`. -/
def correctSplitLimit (dim : Dimension) (i : Nat) (split : Split)
    (auto : Bool) : Split × Bool :=
  if split.limit.isNone && (auto || dim.kind != "time") then
    (split.changeLimit (if i = 0 then 50 else 5), true)
  else
    (split, auto)

/-- The whole body of the Table fallback's map callback: the sort phase
followed by the limit phase.  `dim` is the source's `splitDimension`, computed
on every iteration as `dataCube.getDimension(splits.first().reference)` — from
the FIRST split's reference, not the current split's — hence the same
dimension at every position, threaded in once.  `auto` is the mutable
`autoChanged` flag at this iteration's start; the result pairs the corrected
split with the flag's value after the iteration. -/
def correctSplit (dim : Dimension) (dc : DataCube) (i : Nat) (split : Split)
    (auto : Bool) : Split × Bool :=
  let p := correctSplitSort dim dc split auto
  correctSplitLimit dim i p.1 p.2

/-- The indexed map of the Table fallback with the `autoChanged` flag threaded
through the iterations: returns the corrected split list and the flag's final
value. -/
def correctSplits (dim : Dimension) (dc : DataCube) :
    List Split → Nat → Bool → List Split × Bool
  | [], _, auto => ([], auto)
  | s :: rest, i, auto =>
    let p := correctSplit dim dc i s auto
    let q := correctSplits dim dc rest (i + 1) p.2
    (p.1 :: q.1, q.2)

/-- Translated from the Table manifest's `.otherwise(...)` fallback action.
`none` models the crash of `splits.first().reference` on an empty sequence or
of `.sortStrategy` on a failed dimension lookup; on the engine's contract
(referential integrity, splits non-empty past the `noSplits` rule) the result
is `some`.  After the map, a present color assignment is cleared and forces
`autoChanged`; the verdict is AUTOMATIC with priority 6 carrying only the
corrected splits, or READY with priority 10 when selected and 8 otherwise. -/
def tableOtherwise (ctx : Context) : Option Resolve :=
  match ctx.splits.head? with
  | none => none
  | some first =>
    match ctx.dataCube.getDimension first.reference with
    | none => none
    | some splitDimension =>
      let p := correctSplits splitDimension ctx.dataCube ctx.splits 0 false
      let autoChanged := p.2 || ctx.colors.isSome
      some (if autoChanged then
              .automatic 6 ⟨some p.1, none⟩
            else
              .ready (if ctx.isSelectedVisualization then 10 else 8))

/-- Translated from the Table manifest's rule registrations, in source order:
`noSplits → manualDimensionSelection`, then
`supportedSplitsCount → removeExcessiveSplits "Table"`.  Actions are wrapped in
`some` because the fallback's result type is optional. -/
def tableRules : List (Rule Context (Option Resolve)) :=
  [⟨Predicates.noSplits,
    fun ctx => some (Actions.manualDimensionSelection "The Table requires at least one split" ctx)⟩,
   ⟨Predicates.supportedSplitsCount,
    fun ctx => some (Actions.removeExcessiveSplits "Table" ctx)⟩]

/-- The Table manifest's built evaluator: the rule chain over the fallback. -/
def evaluateTable (ctx : Context) : Option Resolve :=
  evalRules tableRules tableOtherwise ctx

/-- Modelled from the spec (section 2, control flow): applying an automatic
adjustment to the query state replaces each field the adjustment carries; for
the context fields modelled here that is the split list. -/
def applyAdjustment (ctx : Context) (adj : Adjustment) : Context :=
  { ctx with splits := adj.splits.getD ctx.splits }

namespace Resolutions

/-- Translated from `Resolutions.firstMeasure` (resolutions.ts): dereference
the first measure of the cube's measure list with no emptiness guard and
propose it as the sole series.  `none` models the crash of
`firstMeasure.title` when the measure list is empty. -/
def firstMeasure (dataCube : DataCube) : Option (List Resolution) :=
  match dataCube.measures.head? with
  | none => none
  | some m =>
    some [⟨"Select measure: " ++ m.title,
           ⟨none, some [Series.fromMeasure m]⟩⟩]

end Resolutions

/-! Helper lemmas about the fallback's split-correction pass. -/

theorem changeSort_reference (s : Split) (so : «Sort») :
    (s.changeSort so).reference = s.reference := rfl

theorem changeLimit_reference (s : Split) (l : Nat) :
    (s.changeLimit l).reference = s.reference := rfl

theorem correctSplitSort_reference (dim : Dimension) (dc : DataCube)
    (s : Split) (a : Bool) :
    ((correctSplitSort dim dc s a).1).reference = s.reference := by
  unfold correctSplitSort
  split
  · split
    · split <;> rfl
    · rfl
  · rfl

theorem correctSplitLimit_sort (dim : Dimension) (i : Nat) (s : Split)
    (a : Bool) : ((correctSplitLimit dim i s a).1).sort = s.sort := by
  unfold correctSplitLimit
  split <;> rfl

theorem correctSplitLimit_reference (dim : Dimension) (i : Nat) (s : Split)
    (a : Bool) : ((correctSplitLimit dim i s a).1).reference = s.reference := by
  unfold correctSplitLimit
  split <;> rfl

theorem correctSplit_reference (dim : Dimension) (dc : DataCube) (i : Nat)
    (s : Split) (a : Bool) :
    ((correctSplit dim dc i s a).1).reference = s.reference := by
  unfold correctSplit
  rw [correctSplitLimit_reference, correctSplitSort_reference]

theorem correctSplitSort_sort_isSome (dim : Dimension) (dc : DataCube)
    (s : Split) (a : Bool) :
    ((correctSplitSort dim dc s a).1).sort.isSome = true := by
  unfold correctSplitSort
  split
  · split
    · split <;> simp [Split.changeSort]
    · simp [Split.changeSort]
  · rename_i h
    cases hs : s.sort with
    | none => rw [hs] at h; simp at h
    | some so => simp [hs]

theorem correctSplit_sort_isSome (dim : Dimension) (dc : DataCube) (i : Nat)
    (s : Split) (a : Bool) :
    ((correctSplit dim dc i s a).1).sort.isSome = true := by
  unfold correctSplit
  rw [correctSplitLimit_sort]
  exact correctSplitSort_sort_isSome dim dc s a

theorem correctSplitLimit_limit_none (dim : Dimension) (i : Nat) (s : Split)
    (a : Bool) (h : ((correctSplitLimit dim i s a).1).limit = none) :
    dim.kind = "time" := by
  unfold correctSplitLimit at h
  split at h
  · simp [Split.changeLimit] at h
  · rename_i hcond
    cases hl : s.limit with
    | some l => rw [hl] at h; simp at h
    | none =>
      rw [hl] at hcond
      simp only [Option.isNone_none, Bool.true_and] at hcond
      have : (dim.kind != "time") = false := by
        cases ha : a with
        | true => rw [ha] at hcond; simp at hcond
        | false => rw [ha] at hcond; simpa using hcond
      simpa using this

theorem correctSplitSort_limit (dim : Dimension) (dc : DataCube) (s : Split)
    (a : Bool) : ((correctSplitSort dim dc s a).1).limit = s.limit := by
  unfold correctSplitSort
  split
  · split
    · split <;> rfl
    · rfl
  · rfl

theorem correctSplit_limit_none (dim : Dimension) (dc : DataCube) (i : Nat)
    (s : Split) (a : Bool) (h : ((correctSplit dim dc i s a).1).limit = none) :
    dim.kind = "time" := by
  unfold correctSplit at h
  exact correctSplitLimit_limit_none dim i _ _ h

theorem correctSplit_noop (dim : Dimension) (dc : DataCube) (i : Nat)
    (s : Split) (h1 : s.sort.isSome = true)
    (h2 : s.limit.isSome = true ∨ dim.kind = "time") :
    correctSplit dim dc i s false = (s, false) := by
  unfold correctSplit
  have hsort : correctSplitSort dim dc s false = (s, false) := by
    unfold correctSplitSort
    split
    · rename_i hn
      rw [Option.isNone_iff_eq_none] at hn
      rw [hn] at h1
      simp at h1
    · rfl
  have hcond : (s.limit.isNone && (false || dim.kind != "time")) = false := by
    rcases h2 with h2 | h2
    · cases hl : s.limit with
      | none => rw [hl] at h2; simp at h2
      | some v => simp
    · rw [h2]; simp
  simp only [hsort]
  show correctSplitLimit dim i s false = (s, false)
  unfold correctSplitLimit
  rw [hcond]
  simp

theorem correctSplits_sort_isSome (dim : Dimension) (dc : DataCube) :
    ∀ (l : List Split) (i : Nat) (a : Bool) (s : Split),
      s ∈ (correctSplits dim dc l i a).1 → s.sort.isSome = true := by
  intro l
  induction l with
  | nil => intro i a s hs; simp [correctSplits] at hs
  | cons x xs ih =>
    intro i a s hs
    simp only [correctSplits, List.mem_cons] at hs
    rcases hs with hs | hs
    · rw [hs]; exact correctSplit_sort_isSome dim dc i x a
    · exact ih (i + 1) _ s hs

theorem correctSplits_limit_none (dim : Dimension) (dc : DataCube) :
    ∀ (l : List Split) (i : Nat) (a : Bool) (s : Split),
      s ∈ (correctSplits dim dc l i a).1 → s.limit = none →
      dim.kind = "time" := by
  intro l
  induction l with
  | nil => intro i a s hs; simp [correctSplits] at hs
  | cons x xs ih =>
    intro i a s hs hl
    simp only [correctSplits, List.mem_cons] at hs
    rcases hs with hs | hs
    · rw [hs] at hl; exact correctSplit_limit_none dim dc i x a hl
    · exact ih (i + 1) _ s hs hl

theorem correctSplits_map_reference (dim : Dimension) (dc : DataCube) :
    ∀ (l : List Split) (i : Nat) (a : Bool),
      ((correctSplits dim dc l i a).1).map (fun s => s.reference) =
        l.map (fun s => s.reference) := by
  intro l
  induction l with
  | nil => intro i a; rfl
  | cons x xs ih =>
    intro i a
    simp only [correctSplits, List.map_cons]
    rw [correctSplit_reference, ih]

theorem correctSplits_length (dim : Dimension) (dc : DataCube) (l : List Split)
    (i : Nat) (a : Bool) :
    ((correctSplits dim dc l i a).1).length = l.length := by
  have h := correctSplits_map_reference dim dc l i a
  have := congrArg List.length h
  simpa using this

theorem correctSplits_fixpoint (dim : Dimension) (dc : DataCube) :
    ∀ (l : List Split) (i : Nat),
      (∀ s ∈ l, s.sort.isSome = true) →
      (∀ s ∈ l, s.limit.isSome = true ∨ dim.kind = "time") →
      correctSplits dim dc l i false = (l, false) := by
  intro l
  induction l with
  | nil => intro i _ _; rfl
  | cons x xs ih =>
    intro i h1 h2
    have hx := correctSplit_noop dim dc i x (h1 x (List.mem_cons_self x xs))
      (h2 x (List.mem_cons_self x xs))
    have hxs := ih (i + 1) (fun s hs => h1 s (List.mem_cons_of_mem x hs))
      (fun s hs => h2 s (List.mem_cons_of_mem x hs))
    simp only [correctSplits, hx, hxs]

/-! Helper lemmas about the Table evaluator's rule chain. -/

theorem evaluateTable_fallback (ctx : Context) (h1 : ctx.splits ≠ [])
    (h2 : ¬ ctx.dataCube.maxSplits < ctx.splits.length) :
    evaluateTable ctx = tableOtherwise ctx := by
  have hno : Predicates.noSplits ctx = false := by
    unfold Predicates.noSplits
    simpa using h1
  have hmax : Predicates.supportedSplitsCount ctx = false := by
    unfold Predicates.supportedSplitsCount
    simpa using h2
  simp [evaluateTable, tableRules, evalRules, hno, hmax]

theorem tableOtherwise_eq (ctx : Context) (first : Split) (d : Dimension)
    (hs : ctx.splits.head? = some first)
    (hd : ctx.dataCube.getDimension first.reference = some d) :
    tableOtherwise ctx =
      some (if (correctSplits d ctx.dataCube ctx.splits 0 false).2 ||
              ctx.colors.isSome then
              .automatic 6 ⟨some (correctSplits d ctx.dataCube ctx.splits 0 false).1, none⟩
            else
              .ready (if ctx.isSelectedVisualization then 10 else 8)) := by
  unfold tableOtherwise
  rw [hs]
  simp only
  rw [hd]

/-! Claim theorems. -/

/-- C8: for every query state with an empty split sequence, the Table
manifest's evaluator returns the MANUAL verdict carrying the "requires at
least one split" diagnostic.  The result is exactly the first rule's action;
in particular the fallback was not consulted, since on empty splits the
fallback would yield `none` while the evaluator yields `some`. -/
theorem table_no_splits_manual (ctx : Context) (h : ctx.splits = []) :
    evaluateTable ctx =
      some (.manual "The Table requires at least one split") := by
  have hno : Predicates.noSplits ctx = true := by
    unfold Predicates.noSplits
    rw [h]
    rfl
  simp [evaluateTable, tableRules, evalRules, hno,
    Actions.manualDimensionSelection]

/-- Witness for C8 at a concrete empty-split context. -/
theorem table_no_splits_manual_witness :
    evaluateTable ⟨[], ⟨[], [], ⟨"count", .descending⟩, 2⟩, none, true⟩ =
      some (.manual "The Table requires at least one split") :=
  table_no_splits_manual ⟨[], ⟨[], [], ⟨"count", .descending⟩, 2⟩, none, true⟩ rfl

/-- C7: for every query state whose split count exceeds the supported maximum,
the Table evaluator returns AUTOMATIC with the splits truncated to exactly the
supported maximum entries; the retained splits are the unchanged prefix of the
original sequence (so their relative order is preserved). -/
theorem table_excessive_splits_truncated (ctx : Context)
    (h : ctx.dataCube.maxSplits < ctx.splits.length) :
    evaluateTable ctx =
      some (.automatic removeExcessiveSplitsPriority
        ⟨some (ctx.splits.take ctx.dataCube.maxSplits), none⟩) ∧
    (ctx.splits.take ctx.dataCube.maxSplits).length = ctx.dataCube.maxSplits ∧
    ctx.splits.take ctx.dataCube.maxSplits ++
      ctx.splits.drop ctx.dataCube.maxSplits = ctx.splits := by
  refine ⟨?_, ?_, List.take_append_drop _ _⟩
  · have hno : Predicates.noSplits ctx = false := by
      unfold Predicates.noSplits
      have : ctx.splits ≠ [] := by
        intro hnil
        rw [hnil] at h
        exact Nat.not_lt_zero _ h
      simpa using this
    have hsup : Predicates.supportedSplitsCount ctx = true := by
      unfold Predicates.supportedSplitsCount
      simpa using h
    simp [evaluateTable, tableRules, evalRules, hno, hsup,
      Actions.removeExcessiveSplits]
  · rw [List.length_take]
    exact Nat.min_eq_left (Nat.le_of_lt h)

/-- Witness for C7: three splits against a supported maximum of two. -/
theorem table_excessive_splits_truncated_witness :
    evaluateTable ⟨[⟨"a", none, none⟩, ⟨"b", none, none⟩, ⟨"c", none, none⟩],
        ⟨[], [], ⟨"count", .descending⟩, 2⟩, none, false⟩ =
      some (.automatic removeExcessiveSplitsPriority
        ⟨some [⟨"a", none, none⟩, ⟨"b", none, none⟩], none⟩) :=
  (table_excessive_splits_truncated
    ⟨[⟨"a", none, none⟩, ⟨"b", none, none⟩, ⟨"c", none, none⟩],
      ⟨[], [], ⟨"count", .descending⟩, 2⟩, none, false⟩ (by decide)).1

/-- C2: rule-chain evaluation is a first-match-wins decision list.  First
conjunct: whenever every predicate registered before a rule tests false and
that rule's predicate tests true, the chain's result is that rule's action
result, whatever rules follow it (so later rules cannot influence the
verdict).  Second conjunct: whenever every registered predicate tests false,
the result is the fallback action's result. -/
theorem rule_chain_first_match_wins {Ctx R : Type} (fb : Ctx → R) (ctx : Ctx) :
    (∀ (pre post : List (Rule Ctx R)) (r : Rule Ctx R),
        (∀ q ∈ pre, q.predicate ctx = false) → r.predicate ctx = true →
        evalRules (pre ++ r :: post) fb ctx = r.action ctx) ∧
    (∀ rules : List (Rule Ctx R),
        (∀ q ∈ rules, q.predicate ctx = false) →
        evalRules rules fb ctx = fb ctx) := by
  constructor
  · intro pre post r hpre hr
    induction pre with
    | nil => simp [evalRules, hr]
    | cons q qs ih =>
      have hq := hpre q (List.mem_cons_self q qs)
      simp only [List.cons_append, evalRules, hq, Bool.false_eq_true, if_false]
      exact ih (fun p hp => hpre p (List.mem_cons_of_mem q hp))
  · intro rules hall
    induction rules with
    | nil => rfl
    | cons q qs ih =>
      have hq := hall q (List.mem_cons_self q qs)
      simp only [evalRules, hq, Bool.false_eq_true, if_false]
      exact ih (fun p hp => hall p (List.mem_cons_of_mem q hp))

/-- Witness for C2 on a concrete three-rule chain over natural numbers: the
second rule matches at context 3 and its action's result is returned despite a
later always-true rule, and a chain whose single predicate tests false falls
back. -/
theorem rule_chain_first_match_wins_witness :
    evalRules ([⟨fun n => n == 0, fun _ => 10⟩] ++
        ⟨fun n => n == 3, fun _ => 20⟩ :: [⟨fun _ => true, fun _ => 30⟩])
      (fun _ => 40) 3 = 20 ∧
    evalRules [⟨fun n => n == 0, fun _ => 10⟩] (fun _ => 40) 3 = 40 := by
  constructor
  · exact (rule_chain_first_match_wins (fun _ => 40) 3).1
      [⟨fun n => n == 0, fun _ => 10⟩] [⟨fun _ => true, fun _ => 30⟩]
      ⟨fun n => n == 3, fun _ => 20⟩
      (by
        intro q hq
        rcases List.mem_singleton.mp hq with rfl
        rfl)
      rfl
  · exact (rule_chain_first_match_wins (fun _ => 40) 3).2
      [⟨fun n => n == 0, fun _ => 10⟩]
      (by
        intro q hq
        rcases List.mem_singleton.mp hq with rfl
        rfl)

/-- C10: `Resolutions.firstMeasure` dereferences the cube's first measure with
no guard.  First conjunct: for every cube whose measure list is non-empty it
returns exactly one suggestion whose adjustment's series is the singleton
series built from that first measure.  Second conjunct: for an empty measure
list the access is undefined (modelled as `none`), so a non-empty measure list
is a necessary precondition. -/
theorem firstMeasure_dereferences_head (dc : DataCube) :
    (∀ (m : Measure) (ms : List Measure), dc.measures = m :: ms →
      Resolutions.firstMeasure dc =
        some [⟨"Select measure: " ++ m.title,
          ⟨none, some [Series.fromMeasure m]⟩⟩]) ∧
    (dc.measures = [] → Resolutions.firstMeasure dc = none) := by
  constructor
  · intro m ms h
    unfold Resolutions.firstMeasure
    rw [h]
    rfl
  · intro h
    unfold Resolutions.firstMeasure
    rw [h]
    rfl

/-- Witness for C10: a one-measure cube yields the singleton suggestion; an
empty-measure cube has no defined result. -/
theorem firstMeasure_dereferences_head_witness :
    Resolutions.firstMeasure ⟨[], [⟨"count", "Count"⟩], ⟨"count", .descending⟩, 2⟩ =
      some [⟨"Select measure: Count", ⟨none, some [⟨"count"⟩]⟩⟩] ∧
    Resolutions.firstMeasure ⟨[], [], ⟨"count", .descending⟩, 2⟩ = none :=
  ⟨(firstMeasure_dereferences_head
      ⟨[], [⟨"count", "Count"⟩], ⟨"count", .descending⟩, 2⟩).1
      ⟨"count", "Count"⟩ [] rfl,
   (firstMeasure_dereferences_head
      ⟨[], [], ⟨"count", .descending⟩, 2⟩).2 rfl⟩

/-- C4: for every context that reaches the Table fallback (non-empty splits,
count within the supported maximum, first split's dimension resolvable) with a
non-null color assignment, the verdict is AUTOMATIC with priority exactly 6,
and the result carries no color assignment — the adjustment holds only the
corrected splits (the fallback nulls its colors and returns
`Resolve.automatic(6, { splits })`). -/
theorem table_colors_cleared_automatic_6 (ctx : Context) (first : Split)
    (d : Dimension)
    (hs : ctx.splits.head? = some first)
    (hmax : ¬ ctx.dataCube.maxSplits < ctx.splits.length)
    (hd : ctx.dataCube.getDimension first.reference = some d)
    (hc : ctx.colors = some ()) :
    evaluateTable ctx =
      some (.automatic 6
        ⟨some (correctSplits d ctx.dataCube ctx.splits 0 false).1, none⟩) := by
  have hne : ctx.splits ≠ [] := by
    intro hnil
    rw [hnil] at hs
    simp at hs
  rw [evaluateTable_fallback ctx hne hmax, tableOtherwise_eq ctx first d hs hd,
    hc]
  simp

/-- Witness for C4: a fully configured single split with colors set still
yields AUTOMATIC with priority 6 and a splits-only adjustment. -/
theorem table_colors_cleared_automatic_6_witness :
    evaluateTable ⟨[⟨"a", some ⟨"count", .descending⟩, some 50⟩],
        ⟨[⟨"a", "string", none⟩], [], ⟨"count", .descending⟩, 2⟩, some (), true⟩ =
      some (.automatic 6
        ⟨some [⟨"a", some ⟨"count", .descending⟩, some 50⟩], none⟩) := by
  have h := table_colors_cleared_automatic_6
    ⟨[⟨"a", some ⟨"count", .descending⟩, some 50⟩],
      ⟨[⟨"a", "string", none⟩], [], ⟨"count", .descending⟩, 2⟩, some (), true⟩
    ⟨"a", some ⟨"count", .descending⟩, some 50⟩ ⟨"a", "string", none⟩
    rfl (by decide) rfl rfl
  rw [h]
  rfl

/-- C6: for every context reaching the Table fallback in which no
auto-correction fires — every split already has a sort, and every split either
has a limit or the consulted dimension is time-kind so that no limit is
assigned — and no colors are set, the verdict is READY with priority 10 when
the Table is the selected visualization and 8 otherwise. -/
theorem table_ready_priority (ctx : Context) (first : Split) (d : Dimension)
    (hs : ctx.splits.head? = some first)
    (hmax : ¬ ctx.dataCube.maxSplits < ctx.splits.length)
    (hd : ctx.dataCube.getDimension first.reference = some d)
    (hc : ctx.colors = none)
    (hsorts : ∀ s ∈ ctx.splits, s.sort.isSome = true)
    (hlims : ∀ s ∈ ctx.splits, s.limit.isSome = true ∨ d.kind = "time") :
    evaluateTable ctx =
      some (.ready (if ctx.isSelectedVisualization then 10 else 8)) := by
  have hne : ctx.splits ≠ [] := by
    intro hnil
    rw [hnil] at hs
    simp at hs
  rw [evaluateTable_fallback ctx hne hmax, tableOtherwise_eq ctx first d hs hd,
    correctSplits_fixpoint d ctx.dataCube ctx.splits 0 hsorts hlims, hc]
  simp

/-- Witness for C6: one fully configured split, Table selected, priority 10. -/
theorem table_ready_priority_witness :
    evaluateTable ⟨[⟨"a", some ⟨"count", .descending⟩, some 50⟩],
        ⟨[⟨"a", "string", none⟩], [], ⟨"count", .descending⟩, 2⟩, none, true⟩ =
      some (.ready 10) := by
  have h := table_ready_priority
    ⟨[⟨"a", some ⟨"count", .descending⟩, some 50⟩],
      ⟨[⟨"a", "string", none⟩], [], ⟨"count", .descending⟩, 2⟩, none, true⟩
    ⟨"a", some ⟨"count", .descending⟩, some 50⟩ ⟨"a", "string", none⟩
    rfl (by decide) rfl rfl (by decide) (by decide)
  rw [h]
  rfl

/-- C1 failing input: the data cube has dimension "a" with no sort strategy
and dimension "b" with sortStrategy "self"; the context splits on "a" (sorted,
limited) and then on "b" (no sort, limited). -/
def c1ctx : Context :=
  ⟨[⟨"a", some ⟨"count", .descending⟩, some 50⟩, ⟨"b", none, some 5⟩],
    ⟨[⟨"a", "string", none⟩, ⟨"b", "string", some "self"⟩],
      [⟨"count", "Count"⟩], ⟨"count", .descending⟩, 5⟩,
    none, true⟩

/-- C1 (code bug): the split on "b" lacks a sort and its own dimension
declares sortStrategy "self", so the claim requires the assigned sort
⟨"b", descending⟩; the evaluator instead consults the FIRST split's dimension
"a" (`dataCube.getDimension(splits.first().reference)`), finds no strategy
there, and assigns the cube's default sort ⟨"count", descending⟩. -/
theorem table_self_strategy_reads_first_split :
    evaluateTable c1ctx =
      some (.automatic 6
        ⟨some [⟨"a", some ⟨"count", .descending⟩, some 50⟩,
               ⟨"b", some ⟨"count", .descending⟩, some 5⟩], none⟩) ∧
    («Sort».mk "count" .descending) ≠ («Sort».mk "b" .descending) := by
  constructor
  · rfl
  · decide

/-- C3 failing input: first split on string dimension "s" (sorted, limited),
second split on time dimension "t" (sorted, no limit). -/
def c3ctx : Context :=
  ⟨[⟨"s", some ⟨"count", .descending⟩, some 50⟩,
    ⟨"t", some ⟨"count", .descending⟩, none⟩],
    ⟨[⟨"s", "string", none⟩, ⟨"t", "time", none⟩],
      [⟨"count", "Count"⟩], ⟨"count", .descending⟩, 5⟩,
    none, true⟩

/-- C3 (code bug): the second split's own dimension "t" is time-kind, no sort
was auto-assigned, and it has no explicit limit, so the claim requires it be
left unlimited; the evaluator instead tests the FIRST split's dimension "s"
(string-kind), assigns limit 5 to the time split, and returns AUTOMATIC. -/
theorem table_limit_reads_first_split_kind :
    evaluateTable c3ctx =
      some (.automatic 6
        ⟨some [⟨"s", some ⟨"count", .descending⟩, some 50⟩,
               ⟨"t", some ⟨"count", .descending⟩, some 5⟩], none⟩) := by
  rfl

/-- C5 failing input: the data cube's dimension "a" declares sortStrategy
"self" while dimension "b" declares none; the context splits on "a" (sorted,
limited) and then on "b" (no sort, limited). -/
def c5ctx : Context :=
  ⟨[⟨"a", some ⟨"count", .descending⟩, some 50⟩, ⟨"b", none, some 5⟩],
    ⟨[⟨"a", "string", some "self"⟩, ⟨"b", "string", none⟩],
      [⟨"count", "Count"⟩], ⟨"count", .descending⟩, 5⟩,
    none, true⟩

/-- C5 (code bug): the split on "b" lacks a sort and its own dimension
declares no sortStrategy, so the claim requires the cube's default sort
⟨"count", descending⟩ and an AUTOMATIC result; the evaluator instead consults
the FIRST split's dimension "a", applies its "self" strategy — assigning sort
⟨"a", descending⟩, which also skips the `autoChanged` flag — and returns
READY 10. -/
theorem table_default_sort_reads_first_split :
    evaluateTable c5ctx = some (.ready 10) ∧
    (correctSplits ⟨"a", "string", some "self"⟩ c5ctx.dataCube
        c5ctx.splits 0 false).1 =
      [⟨"a", some ⟨"count", .descending⟩, some 50⟩,
       ⟨"b", some ⟨"a", .descending⟩, some 5⟩] := by
  constructor
  · rfl
  · rfl

/-- C9: applying the adjustment of an AUTOMATIC Table verdict and evaluating
again yields READY, for every context that reaches the fallback (non-empty
splits, within the supported maximum, resolvable first dimension) with no
colors set — the inputs whose AUTOMATIC can only stem from sort/limit
auto-correction.  After one pass every split has a sort and every limitless
split was skipped because the consulted dimension is time-kind, so the second
pass changes nothing and returns READY with priority 10 or 8. -/
theorem table_automatic_then_ready (ctx : Context) (first : Split)
    (d : Dimension) (p : Nat) (adj : Adjustment)
    (hs : ctx.splits.head? = some first)
    (hmax : ¬ ctx.dataCube.maxSplits < ctx.splits.length)
    (hd : ctx.dataCube.getDimension first.reference = some d)
    (hc : ctx.colors = none)
    (heval : evaluateTable ctx = some (.automatic p adj)) :
    evaluateTable (applyAdjustment ctx adj) =
      some (.ready (if ctx.isSelectedVisualization then 10 else 8)) := by
  have hne : ctx.splits ≠ [] := by
    intro hnil
    rw [hnil] at hs
    simp at hs
  rw [evaluateTable_fallback ctx hne hmax, tableOtherwise_eq ctx first d hs hd,
    hc] at heval
  simp only [Option.isSome_none, Bool.or_false] at heval
  set N := correctSplits d ctx.dataCube ctx.splits 0 false with hN
  cases hN2 : N.2 with
  | false =>
    rw [hN2] at heval
    simp at heval
  | true =>
    rw [hN2] at heval
    simp only [if_true, Option.some.injEq, Resolve.automatic.injEq] at heval
    obtain ⟨hp, hadj⟩ := heval
    obtain ⟨tail, htail⟩ : ∃ t, ctx.splits = first :: t := by
      cases hsp : ctx.splits with
      | nil =>
        rw [hsp] at hs
        simp at hs
      | cons a t =>
        rw [hsp] at hs
        simp only [List.head?_cons, Option.some.injEq] at hs
        exact ⟨t, by rw [hs]⟩
    have hN1 : N.1 = (correctSplit d ctx.dataCube 0 first false).1 ::
        (correctSplits d ctx.dataCube tail 1
          (correctSplit d ctx.dataCube 0 first false).2).1 := by
      rw [hN, htail]
      rfl
    have hctx' : applyAdjustment ctx adj = { ctx with splits := N.1 } := by
      rw [← hadj]
      rfl
    rw [hctx']
    have hlen : N.1.length = ctx.splits.length := by
      rw [hN]
      exact correctSplits_length d ctx.dataCube ctx.splits 0 false
    have hne' : N.1 ≠ [] := by
      rw [hN1]
      exact List.cons_ne_nil _ _
    have hmax' : ¬ ctx.dataCube.maxSplits < N.1.length := by
      rw [hlen]
      exact hmax
    have hs' : N.1.head? = some (correctSplit d ctx.dataCube 0 first false).1 := by
      rw [hN1]
      rfl
    have hd' : ctx.dataCube.getDimension
        ((correctSplit d ctx.dataCube 0 first false).1).reference = some d := by
      rw [correctSplit_reference]
      exact hd
    have hsorts : ∀ s ∈ N.1, s.sort.isSome = true := by
      intro s hsm
      exact correctSplits_sort_isSome d ctx.dataCube ctx.splits 0 false s
        (by rw [← hN]; exact hsm)
    have hlims : ∀ s ∈ N.1, s.limit.isSome = true ∨ d.kind = "time" := by
      intro s hsm
      cases hl : s.limit with
      | some v => exact Or.inl (by simp [hl])
      | none =>
        exact Or.inr (correctSplits_limit_none d ctx.dataCube ctx.splits 0
          false s (by rw [← hN]; exact hsm) hl)
    have hfix : correctSplits d ctx.dataCube N.1 0 false = (N.1, false) :=
      correctSplits_fixpoint d ctx.dataCube N.1 0 hsorts hlims
    rw [evaluateTable_fallback { ctx with splits := N.1 } hne' hmax',
      tableOtherwise_eq { ctx with splits := N.1 }
        (correctSplit d ctx.dataCube 0 first false).1 d hs' hd']
    dsimp only
    rw [hfix, hc]
    simp

/-- Witness for C9: a single unsorted, unlimited split is auto-corrected to
AUTOMATIC; re-evaluating the adjusted state yields READY 10. -/
theorem table_automatic_then_ready_witness :
    evaluateTable (applyAdjustment
      ⟨[⟨"x", none, none⟩],
        ⟨[⟨"x", "string", none⟩], [⟨"count", "Count"⟩],
          ⟨"count", .descending⟩, 2⟩, none, true⟩
      ⟨some [⟨"x", some ⟨"count", .descending⟩, some 50⟩], none⟩) =
      some (.ready 10) :=
  table_automatic_then_ready
    ⟨[⟨"x", none, none⟩],
      ⟨[⟨"x", "string", none⟩], [⟨"count", "Count"⟩],
        ⟨"count", .descending⟩, 2⟩, none, true⟩
    ⟨"x", none, none⟩ ⟨"x", "string", none⟩ 6
    ⟨some [⟨"x", some ⟨"count", .descending⟩, some 50⟩], none⟩
    rfl (by decide) rfl rfl rfl

end Turnilo
